import Mathlib

/-!
Verification of the oracle demo repository: the on-chain `Oracle` contract
(src/contracts/Oracle.sol) and the off-chain updater scripts
(src/unnamed/part_002 and src/scripts/liveOracle.ts).

The contract is embedded as a pure state-transition function: storage is a
record, `msg.sender` and `block.timestamp` are explicit parameters, a revert
returns the original state with no events.
-/

/-- An account address, abstracted to a natural number (only equality of
addresses matters to the contract logic). -/
abbrev Address : Type := Nat

/-- Storage of contract `Oracle`: `uint256 private data`,
`uint256 private lastUpdated`, `address public oracleUpdater`. -/
structure OracleState where
  data : Nat
  lastUpdated : Nat
  oracleUpdater : Address
  deriving Repr, DecidableEq

/-- The contract's event `DataUpdated(uint256 indexed value, uint256 timestamp)`. -/
inductive Event where
  | DataUpdated (value : Nat) (timestamp : Nat)
  deriving Repr, DecidableEq

/-- `constructor() { oracleUpdater = msg.sender; }` over zero-initialized
storage (Solidity zero-initializes `data` and `lastUpdated`). -/
def Oracle.deploy (sender : Address) : OracleState :=
  { data := 0, lastUpdated := 0, oracleUpdater := sender }

/-- Outcome of an external call: success with the new storage and the emitted
events, or a revert carrying the `require` message. -/
inductive CallResult where
  | ok (s : OracleState) (events : List Event)
  | revert (msg : String)
  deriving Repr, DecidableEq

/-- `function updateData(uint256 value) external onlyOracle`: the `onlyOracle`
modifier is `require(msg.sender == oracleUpdater, "Not authorized")`; the body
is `data = value; lastUpdated = block.timestamp;
emit DataUpdated(value, block.timestamp);`. -/
def updateData (s : OracleState) (sender : Address) (blockTimestamp : Nat)
    (value : Nat) : CallResult :=
  if sender = s.oracleUpdater then
    CallResult.ok { s with data := value, lastUpdated := blockTimestamp }
      [Event.DataUpdated value blockTimestamp]
  else
    CallResult.revert "Not authorized"

/-- `function getData() external view returns (uint256 value, uint256 timestamp)`:
`return (data, lastUpdated);`. -/
def getData (s : OracleState) : Nat × Nat := (s.data, s.lastUpdated)

/-- Getter generated for the public variable `oracleUpdater`. -/
def getOracleUpdater (s : OracleState) : Address := s.oracleUpdater

/-- State and event log actually committed by an `updateData` transaction: the
ledger rolls a reverted transaction back, so a revert leaves storage unchanged
and emits nothing. -/
def applyUpdateData (s : OracleState) (sender : Address) (ts v : Nat) :
    OracleState × List Event :=
  match updateData s sender ts v with
  | CallResult.ok s2 evs => (s2, evs)
  | CallResult.revert _ => (s, [])

/-- One external transaction against the contract. -/
inductive Call where
  | update (sender : Address) (ts : Nat) (v : Nat)
  | get (sender : Address)
  deriving Repr, DecidableEq

/-- Committed state after one transaction (`getData` is a view call and leaves
storage unchanged). -/
def execCall (s : OracleState) (c : Call) : OracleState :=
  match c with
  | Call.update sender ts v => (applyUpdateData s sender ts v).1
  | Call.get _ => s

/-- Committed state after a sequence of transactions. -/
def execTrace (s : OracleState) (cs : List Call) : OracleState :=
  cs.foldl execCall s

/-- Whether a call is an `updateData` transaction that the `onlyOracle` guard
lets through when the authorized writer is `w`. -/
def isSuccessfulUpdate (w : Address) (c : Call) : Bool :=
  match c with
  | Call.update sender _ _ => decide (sender = w)
  | Call.get _ => false

/-- Ledger-side assumption on a call: an `updateData` transaction is mined in a
block with a positive timestamp. -/
def updateTsPos (c : Call) : Prop :=
  match c with
  | Call.update _ ts _ => 0 < ts
  | Call.get _ => True

/-! Helper lemmas about single transactions and traces. -/

lemma execCall_get (s : OracleState) (a : Address) :
    execCall s (Call.get a) = s := rfl

lemma execCall_update_auth (s : OracleState) (sender : Address) (ts v : Nat)
    (h : sender = s.oracleUpdater) :
    execCall s (Call.update sender ts v) =
      { s with data := v, lastUpdated := ts } := by
  simp [execCall, applyUpdateData, updateData, h]

lemma execCall_update_unauth (s : OracleState) (sender : Address) (ts v : Nat)
    (h : ¬ sender = s.oracleUpdater) :
    execCall s (Call.update sender ts v) = s := by
  simp [execCall, applyUpdateData, updateData, h]

lemma execCall_oracleUpdater (s : OracleState) (c : Call) :
    (execCall s c).oracleUpdater = s.oracleUpdater := by
  cases c with
  | update sender ts v =>
      by_cases h : sender = s.oracleUpdater
      · rw [execCall_update_auth s sender ts v h]
      · rw [execCall_update_unauth s sender ts v h]
  | get a => rfl

lemma execTrace_oracleUpdater (s : OracleState) (cs : List Call) :
    (execTrace s cs).oracleUpdater = s.oracleUpdater := by
  induction cs generalizing s with
  | nil => rfl
  | cons c cs ih =>
      show (execTrace (execCall s c) cs).oracleUpdater = s.oracleUpdater
      rw [ih (execCall s c), execCall_oracleUpdater]

lemma execTrace_noSuccess (s : OracleState) (cs : List Call)
    (h : ∀ c ∈ cs, isSuccessfulUpdate s.oracleUpdater c = false) :
    execTrace s cs = s := by
  induction cs generalizing s with
  | nil => rfl
  | cons c cs ih =>
      show execTrace (execCall s c) cs = s
      have hc : execCall s c = s := by
        cases c with
        | update sender ts v =>
            have hs := h (Call.update sender ts v) (List.mem_cons_self _ _)
            simp [isSuccessfulUpdate] at hs
            exact execCall_update_unauth s sender ts v hs
        | get a => rfl
      rw [hc]
      exact ih s (fun c2 hc2 => h c2 (List.mem_cons_of_mem _ hc2))

lemma trace_lastUpdated_zero_iff (s : OracleState) (cs : List Call)
    (hts : ∀ c ∈ cs, updateTsPos c) :
    (execTrace s cs).lastUpdated = 0 ↔
      (s.lastUpdated = 0 ∧
        ∀ c ∈ cs, isSuccessfulUpdate s.oracleUpdater c = false) := by
  induction cs generalizing s with
  | nil => simp [execTrace]
  | cons c cs ih =>
      have step : execTrace s (c :: cs) = execTrace (execCall s c) cs := rfl
      rw [step]
      cases c with
      | get a =>
          rw [execCall_get]
          rw [ih s (fun c2 hc2 => hts c2 (List.mem_cons_of_mem _ hc2))]
          simp [isSuccessfulUpdate]
      | update sender ts v =>
          have hpos : 0 < ts := hts (Call.update sender ts v) (List.mem_cons_self _ _)
          by_cases hsend : sender = s.oracleUpdater
          · rw [execCall_update_auth s sender ts v hsend]
            have ih2 := ih { s with data := v, lastUpdated := ts }
              (fun c2 hc2 => hts c2 (List.mem_cons_of_mem _ hc2))
            rw [ih2]
            constructor
            · rintro ⟨hzero, _⟩
              exact absurd hzero (Nat.pos_iff_ne_zero.mp hpos)
            · rintro ⟨_, hall⟩
              have := hall (Call.update sender ts v) (List.mem_cons_self _ _)
              simp [isSuccessfulUpdate, hsend] at this
          · rw [execCall_update_unauth s sender ts v hsend]
            rw [ih s (fun c2 hc2 => hts c2 (List.mem_cons_of_mem _ hc2))]
            simp [isSuccessfulUpdate, hsend]

/-! Claim theorems for the contract. -/

/-- C1: for every uint256 value `v` (including 0 and the maximum representable
value 2^256 - 1), `updateData(v)` called by the authorized writer at any
positive ledger time `ts` succeeds, and `getData()` immediately afterwards
returns the pair `(v, ts)` with `ts > 0`. -/
theorem updateData_by_writer_ok (s : OracleState) (v ts : Nat)
    (hts : 0 < ts) (_hv : v ≤ 2 ^ 256 - 1) :
    updateData s s.oracleUpdater ts v =
      CallResult.ok { s with data := v, lastUpdated := ts }
        [Event.DataUpdated v ts] ∧
    getData { s with data := v, lastUpdated := ts } = (v, ts) ∧ 0 < ts := by
  refine ⟨?_, rfl, hts⟩
  simp [updateData]

/-- Witness for C1 at the maximum representable uint256 value. -/
theorem updateData_by_writer_ok_witness :
    updateData (Oracle.deploy 5) (Oracle.deploy 5).oracleUpdater 7 (2 ^ 256 - 1) =
      CallResult.ok
        { Oracle.deploy 5 with data := 2 ^ 256 - 1, lastUpdated := 7 }
        [Event.DataUpdated (2 ^ 256 - 1) 7] ∧
    getData { Oracle.deploy 5 with data := 2 ^ 256 - 1, lastUpdated := 7 } =
      (2 ^ 256 - 1, 7) ∧ 0 < 7 :=
  updateData_by_writer_ok (Oracle.deploy 5) (2 ^ 256 - 1) 7 (by norm_num)
    (le_refl _)

/-- C2: for every caller `c` different from the authorized writer and every
value, `updateData` reverts with the message "Not authorized", and the
committed state is unchanged, so a subsequent `getData()` returns exactly the
pre-call pair. -/
theorem updateData_unauthorized_reverts (s : OracleState) (c : Address)
    (ts v : Nat) (h : c ≠ s.oracleUpdater) :
    updateData s c ts v = CallResult.revert "Not authorized" ∧
    applyUpdateData s c ts v = (s, []) ∧
    getData (applyUpdateData s c ts v).1 = getData s := by
  have h1 : updateData s c ts v = CallResult.revert "Not authorized" := by
    simp [updateData, h]
  refine ⟨h1, ?_, ?_⟩
  · simp [applyUpdateData, h1]
  · simp [applyUpdateData, h1]

/-- Witness for C2: caller 1 against a contract deployed by 0. -/
theorem updateData_unauthorized_reverts_witness :
    updateData (Oracle.deploy 0) 1 9 42 = CallResult.revert "Not authorized" ∧
    applyUpdateData (Oracle.deploy 0) 1 9 42 = (Oracle.deploy 0, []) ∧
    getData (applyUpdateData (Oracle.deploy 0) 1 9 42).1 =
      getData (Oracle.deploy 0) :=
  updateData_unauthorized_reverts (Oracle.deploy 0) 1 9 42 (by decide)

/-- C3: `oracleUpdater` is set at construction to the deployer, and no
sequence of `updateData`/`getData` transactions ever changes it. -/
theorem oracleUpdater_immutable (d : Address) (cs : List Call) :
    getOracleUpdater (Oracle.deploy d) = d ∧
    getOracleUpdater (execTrace (Oracle.deploy d) cs) = d := by
  refine ⟨rfl, ?_⟩
  show (execTrace (Oracle.deploy d) cs).oracleUpdater = d
  rw [execTrace_oracleUpdater]
  rfl

/-- C4: every transaction either leaves `data` and `lastUpdated` both
unchanged (any `getData`, any reverted `updateData`), or is an `updateData`
by the authorized writer that sets both fields in the same atomic step;
no transition updates one field without the other. -/
theorem data_lastUpdated_change_as_pair (s : OracleState) (c : Call) :
    ((execCall s c).data = s.data ∧
      (execCall s c).lastUpdated = s.lastUpdated) ∨
    (∃ sender ts v, c = Call.update sender ts v ∧ sender = s.oracleUpdater ∧
      execCall s c =
        { data := v, lastUpdated := ts, oracleUpdater := s.oracleUpdater }) := by
  cases c with
  | get a => exact Or.inl ⟨rfl, rfl⟩
  | update sender ts v =>
      by_cases h : sender = s.oracleUpdater
      · refine Or.inr ⟨sender, ts, v, rfl, h, ?_⟩
        rw [execCall_update_auth s sender ts v h]
      · rw [execCall_update_unauth s sender ts v h]
        exact Or.inl ⟨rfl, rfl⟩

/-- C5: before any write `getData()` returns `(0, 0)`, and over any trace of
transactions mined at positive ledger times, `lastUpdated = 0` holds exactly
when no successful write has occurred in the trace. -/
theorem initial_read_and_lastUpdated_sentinel (d : Address) (cs : List Call)
    (hts : ∀ c ∈ cs, updateTsPos c) :
    getData (Oracle.deploy d) = (0, 0) ∧
    ((execTrace (Oracle.deploy d) cs).lastUpdated = 0 ↔
      ∀ c ∈ cs, isSuccessfulUpdate d c = false) := by
  refine ⟨rfl, ?_⟩
  have h := trace_lastUpdated_zero_iff (Oracle.deploy d) cs hts
  have hupd : (Oracle.deploy d).oracleUpdater = d := rfl
  rw [hupd] at h
  rw [h]
  simp [Oracle.deploy]

/-- Witness for C5: one successful write at time 3 and one rejected write,
starting from a fresh deployment by address 2. -/
theorem initial_read_and_lastUpdated_sentinel_witness :
    getData (Oracle.deploy 2) = (0, 0) ∧
    ((execTrace (Oracle.deploy 2)
        [Call.update 2 3 10, Call.update 4 5 11]).lastUpdated = 0 ↔
      ∀ c ∈ [Call.update 2 3 10, Call.update 4 5 11],
        isSuccessfulUpdate 2 c = false) :=
  initial_read_and_lastUpdated_sentinel 2
    [Call.update 2 3 10, Call.update 4 5 11]
    (by intro c hc; fin_cases hc <;> simp [updateTsPos])

/-- C6: a successful `updateData(v)` at ledger time `ts` emits exactly the one
event `DataUpdated(v, ts)`, whose timestamp is greater than or equal to the
`lastUpdated` returned by `getData()` immediately after the write; a rejected
`updateData` emits no event. -/
theorem updateData_event_emission (s : OracleState) (sender : Address)
    (ts v : Nat) :
    (sender = s.oracleUpdater →
      (applyUpdateData s sender ts v).2 = [Event.DataUpdated v ts] ∧
      (getData (applyUpdateData s sender ts v).1).2 ≤ ts) ∧
    (sender ≠ s.oracleUpdater → (applyUpdateData s sender ts v).2 = []) := by
  constructor
  · intro h
    constructor
    · simp [applyUpdateData, updateData, h]
    · simp [applyUpdateData, updateData, getData, h]
  · intro h
    simp [applyUpdateData, updateData, h]

/-- Witness for C6: a successful write by the deployer and a rejected write by
another address, both on a fresh deployment by address 3. -/
theorem updateData_event_emission_witness :
    ((applyUpdateData (Oracle.deploy 3) 3 9 42).2 = [Event.DataUpdated 42 9] ∧
      (getData (applyUpdateData (Oracle.deploy 3) 3 9 42).1).2 ≤ 9) ∧
    (applyUpdateData (Oracle.deploy 3) 1 9 42).2 = [] :=
  ⟨(updateData_event_emission (Oracle.deploy 3) 3 9 42).1 rfl,
    (updateData_event_emission (Oracle.deploy 3) 1 9 42).2 (by decide)⟩

/-- C10: after a successful `updateData(v)` at ledger time `ts`, the emitted
event carries exactly the timestamp `ts`, `getData()` returns `lastUpdated`
exactly equal to `ts`, and it stays equal to `ts` over any subsequent trace
containing no successful write. -/
theorem event_timestamp_equals_lastUpdated (s : OracleState) (ts v : Nat)
    (cs : List Call)
    (hcs : ∀ c ∈ cs, isSuccessfulUpdate s.oracleUpdater c = false) :
    (applyUpdateData s s.oracleUpdater ts v).2 = [Event.DataUpdated v ts] ∧
    (getData (applyUpdateData s s.oracleUpdater ts v).1).2 = ts ∧
    (getData
      (execTrace (applyUpdateData s s.oracleUpdater ts v).1 cs)).2 = ts := by
  have hok : applyUpdateData s s.oracleUpdater ts v =
      ({ s with data := v, lastUpdated := ts }, [Event.DataUpdated v ts]) := by
    simp [applyUpdateData, updateData]
  refine ⟨by rw [hok], by rw [hok]; rfl, ?_⟩
  rw [hok]
  have hsame : ({ s with data := v, lastUpdated := ts } :
      OracleState).oracleUpdater = s.oracleUpdater := rfl
  have := execTrace_noSuccess { s with data := v, lastUpdated := ts } cs
    (by rw [hsame]; exact hcs)
  rw [this]
  rfl

/-- Witness for C10: a write of 42 at time 9 by the deployer 3, followed by a
rejected write and a read. -/
theorem event_timestamp_equals_lastUpdated_witness :
    (applyUpdateData (Oracle.deploy 3) (Oracle.deploy 3).oracleUpdater 9 42).2 =
      [Event.DataUpdated 42 9] ∧
    (getData (applyUpdateData (Oracle.deploy 3)
      (Oracle.deploy 3).oracleUpdater 9 42).1).2 = 9 ∧
    (getData (execTrace
      (applyUpdateData (Oracle.deploy 3) (Oracle.deploy 3).oracleUpdater 9 42).1
      [Call.update 7 11 5, Call.get 8])).2 = 9 :=
  event_timestamp_equals_lastUpdated (Oracle.deploy 3) 9 42
    [Call.update 7 11 5, Call.get 8] (by decide)

/-!
Off-chain updater of src/unnamed/part_002: `updateOracle()` is launched once
immediately, then `setInterval(updateOracle, 5 * 60 * 1000)` invokes it again
at every tick. `updateOracle` is an async function and `setInterval` does not
await it, so tick `k` fires at time `k * interval` regardless of whether the
previous invocation's promise has settled.
-/

/-- The update interval of part_002: `5 * 60 * 1000` milliseconds. -/
def updateIntervalMs : Nat := 5 * 60 * 1000

/-- Start time of the k-th updater cycle under `setInterval` scheduling: the
first cycle runs at time 0, the k-th at `k * interval`, independent of the
durations of earlier cycles. -/
def cycleStart (interval k : Nat) : Nat := k * interval

/-- Cycle `k` is still in flight at time `t`, when `dur k` is the duration of
the k-th fetch-then-write cycle. -/
def inFlight (interval : Nat) (dur : Nat → Nat) (k t : Nat) : Prop :=
  cycleStart interval k ≤ t ∧ t < cycleStart interval k + dur k

/-- The updater serializes its cycles: no cycle starts while the previous one
is still in flight. -/
def Serializes (interval : Nat) (dur : Nat → Nat) : Prop :=
  ∀ k, ¬ inFlight interval dur k (cycleStart interval (k + 1))

/-- Failure kinds that can occur inside one updater cycle of part_002. -/
inductive CycleError where
  | fetchError
  | submissionError
  | ledgerRejection
  deriving Repr, DecidableEq

/-- Console lines printed by `updateOracle` of part_002:
"Updating oracle...", the success line with the value, or the
`console.error` line of the catch block. -/
inductive LogLine where
  | updatingOracle
  | dataUpdatedWith (v : Nat)
  | errorDuringUpdate (e : CycleError)
  deriving Repr, DecidableEq

/-- The try-block of `updateOracle` in part_002: obtain the value (the axios
fetch in the live variant, a mock in the committed one), send the
`updateData` transaction, await `tx.wait()`; any step may throw. -/
def cycleBody (fetchRes : Except CycleError Nat)
    (sendTx : Nat → Except CycleError Nat)
    (waitTx : Nat → Except CycleError Unit) : Except CycleError Nat := do
  let v ← fetchRes
  let tx ← sendTx v
  waitTx tx
  pure v

/-- `updateOracle` of part_002: the whole cycle body runs inside try/catch;
an error is logged via `console.error` and absorbed, so the function always
returns normally with its log lines. -/
def updateOracle (fetchRes : Except CycleError Nat)
    (sendTx : Nat → Except CycleError Nat)
    (waitTx : Nat → Except CycleError Unit) : List LogLine :=
  LogLine.updatingOracle ::
    match cycleBody fetchRes sendTx waitTx with
    | Except.ok v => [LogLine.dataUpdatedWith v]
    | Except.error e => [LogLine.errorDuringUpdate e]

/-- The environment one tick of the `setInterval` loop runs in. -/
structure CycleEnv where
  fetchRes : Except CycleError Nat
  sendTx : Nat → Except CycleError Nat
  waitTx : Nat → Except CycleError Unit

/-- The `setInterval` loop of part_002: each scheduled tick runs
`updateOracle`; since `updateOracle` never throws, every tick produces its
cycle's log, regardless of earlier failures. -/
def runTicks (envs : List CycleEnv) : List (List LogLine) :=
  envs.map (fun e => updateOracle e.fetchRes e.sendTx e.waitTx)

/-! Claim theorems for the updater loop. -/

/-- C7 counterexample: with the interval of part_002 and every cycle taking
one millisecond longer than the interval, cycle 1 starts while cycle 0 is
still in flight — `setInterval` does not serialize cycles for every duration
of the fetch and write steps. -/
theorem setInterval_not_serialized :
    ¬ Serializes updateIntervalMs (fun _ => updateIntervalMs + 1) := by
  intro h
  have h0 := h 0
  apply h0
  constructor
  · simp [cycleStart]
  · simp [cycleStart, updateIntervalMs]

/-- C7 amended: a new cycle starts at every tick whether or not the previous
cycle has finished; cycles do not overlap exactly in the benign case, i.e.
whenever every cycle's duration is at most the update interval. -/
theorem setInterval_serializes_iff_short_cycles (dur : Nat → Nat)
    (h : ∀ k, dur k ≤ updateIntervalMs) :
    Serializes updateIntervalMs dur := by
  intro k hk
  have h2 := hk.2
  have hle : cycleStart updateIntervalMs k + dur k ≤
      cycleStart updateIntervalMs (k + 1) := by
    simp only [cycleStart, Nat.succ_mul]
    exact Nat.add_le_add_left (h k) _
  exact absurd h2 (Nat.not_lt.mpr hle)

/-- Witness for the amended C7: all cycles of zero duration are serialized. -/
theorem setInterval_serializes_iff_short_cycles_witness :
    Serializes updateIntervalMs (fun _ => 0) :=
  setInterval_serializes_iff_short_cycles (fun _ => 0)
    (fun _ => Nat.zero_le _)

/-- C8: the loop survives every failure: every scheduled tick produces exactly
one cycle log (the loop never exits early), and a cycle whose body fails with
any error ends with that error caught and logged, not propagated. -/
theorem updater_loop_survives_failures (envs : List CycleEnv) :
    (runTicks envs).length = envs.length ∧
    (∀ e : CycleEnv, ∀ err : CycleError,
      cycleBody e.fetchRes e.sendTx e.waitTx = Except.error err →
      updateOracle e.fetchRes e.sendTx e.waitTx =
        [LogLine.updatingOracle, LogLine.errorDuringUpdate err]) := by
  constructor
  · simp [runTicks]
  · intro e err herr
    simp [updateOracle, herr]

/-- Witness for C8: a two-tick schedule whose first cycle fails at the fetch
step and whose second cycle succeeds. -/
theorem updater_loop_survives_failures_witness :
    (runTicks
      [⟨Except.error CycleError.fetchError, fun v => Except.ok v,
          fun _ => Except.ok ()⟩,
        ⟨Except.ok 7, fun v => Except.ok v, fun _ => Except.ok ()⟩]).length = 2 ∧
    updateOracle (Except.error CycleError.fetchError)
        (fun v => Except.ok v) (fun _ => Except.ok ()) =
      [LogLine.updatingOracle,
        LogLine.errorDuringUpdate CycleError.fetchError] :=
  ⟨(updater_loop_survives_failures
      [⟨Except.error CycleError.fetchError, fun v => Except.ok v,
          fun _ => Except.ok ()⟩,
        ⟨Except.ok 7, fun v => Except.ok v, fun _ => Except.ok ()⟩]).1,
    (updater_loop_survives_failures []).2
      ⟨Except.error CycleError.fetchError, fun v => Except.ok v,
        fun _ => Except.ok ()⟩
      CycleError.fetchError rfl⟩

/-!
Live updater of src/scripts/liveOracle.ts: `getBitcoinPrice` fetches the USD
price from the CoinGecko API inside a try/catch; on success it returns
`Math.floor(price * 100)` (cents), on any error it logs a warning and returns
the default value 50000. The script then passes the returned number to
`updateOracle`, which submits it via `updateData` unconditionally.
-/

/-- Failure kinds of the external fetch in `getBitcoinPrice`. -/
inductive FetchError where
  | timeout
  | networkError
  | malformedResponse
  deriving Repr, DecidableEq

/-- Console lines printed by the bitcoin segment of liveOracle.ts. -/
inductive LiveLog where
  | fetchingBitcoinPrice
  | bitcoinPriceIs (cents : Int)
  | apiErrorUsingDefault
  | updatingOracleWith (v : Int)
  | updateConfirmed
  | updateError
  deriving Repr, DecidableEq

/-- `getBitcoinPrice` of liveOracle.ts: on a successful response return
`Math.floor(price * 100)`; in the catch branch log the API-error warning and
return the default 50000. Returns the value together with the log lines. -/
def getBitcoinPrice (response : Except FetchError Rat) : Int × List LiveLog :=
  match response with
  | Except.ok price =>
      (Int.floor (price * 100),
        [LiveLog.fetchingBitcoinPrice,
          LiveLog.bitcoinPriceIs (Int.floor (price * 100))])
  | Except.error _ =>
      (50000, [LiveLog.fetchingBitcoinPrice, LiveLog.apiErrorUsingDefault])

/-- `updateOracle(value, description)` of liveOracle.ts: submit
`updateData(value)` and await confirmation; return true with the confirmation
logs on success, log the error and return false on write failure. -/
def updateOracleLive (value : Int) (writeOk : Bool) : Bool × List LiveLog :=
  if writeOk then
    (true, [LiveLog.updatingOracleWith value, LiveLog.updateConfirmed])
  else
    (false, [LiveLog.updatingOracleWith value, LiveLog.updateError])

/-- TEST 1 of liveOracle.ts: `btcPrice := await getBitcoinPrice()` followed
unconditionally by `updateOracle(btcPrice, ...)`. Returns the value submitted
to the contract write together with all log lines of the cycle. -/
def bitcoinTestCycle (response : Except FetchError Rat) (writeOk : Bool) :
    Int × List LiveLog :=
  let fetched := getBitcoinPrice response
  let upd := updateOracleLive fetched.1 writeOk
  (fetched.1, fetched.2 ++ upd.2)

/-- C9: when the fetch fails for any reason, the cycle substitutes the
documented fallback constant 50000 instead of aborting, logs the fetch
failure, and still submits exactly that fallback value to the write step. -/
theorem fetch_failure_uses_fallback (e : FetchError) (writeOk : Bool) :
    (bitcoinTestCycle (Except.error e) writeOk).1 = 50000 ∧
    LiveLog.apiErrorUsingDefault ∈ (bitcoinTestCycle (Except.error e) writeOk).2 ∧
    LiveLog.updatingOracleWith 50000 ∈
      (bitcoinTestCycle (Except.error e) writeOk).2 := by
  refine ⟨rfl, ?_, ?_⟩
  · simp [bitcoinTestCycle, getBitcoinPrice]
  · cases writeOk <;>
      simp [bitcoinTestCycle, getBitcoinPrice, updateOracleLive]
